import Mathlib

/-!
# Shallow embedding of `src/src/main.rs` (Tarbetu/website)

The program is a browser-hosted terminal-style portfolio UI: an intro
animation state machine followed by a navigable menu with a scrollable
content panel.  This file embeds the state machine and key handling of
`App` in `src/src/main.rs` and proves the specification's testable
properties about them.

Modelling conventions:
* `usize`/`u16` values are embedded as `Nat`; Rust `saturating_sub` is the
  truncated subtraction of `Nat`, and `u16::saturating_add` is made explicit
  by `satAdd16` (capped at `u16::MAX = 65535`).
* Time is not stored: the `draw_web` closure becomes `App.tick`, which takes
  the number of milliseconds elapsed since `last_instant` as an argument;
  whenever the Rust code captures a fresh `Instant::now()`, the model resets
  that elapsed value to `0` for the rest of the tick.
* Rendering produces no state change relevant to the claims, except that the
  external list widget keeps the selection inside the menu; see `ListState`.
-/

set_option autoImplicit false

namespace Website

/-- `AppStatus` (main.rs lines 24-31). -/
inductive AppStatus where
  | IntroductionStart
  | Introduction (n : Nat)
  | IntroductionIdle
  | List
deriving Repr, DecidableEq

/-- `AppStatus::max_introduction` (main.rs lines 33-37). -/
def AppStatus.max_introduction : Nat := 6

/-- `Background` (main.rs lines 39-45). -/
inductive Background where
  | First
  | Second
  | Third
deriving Repr, DecidableEq

/-- `Background::next` (main.rs lines 125-133). -/
def Background.next : Background → Background
  | .First => .Second
  | .Second => .Third
  | .Third => .First

/-- Modelled from the spec: the module `text` declared at main.rs line 1 is
not present under `src/`; its `TARBETU`, `TARBETU1`, ..., `TARBETU7`
constants are distinct static title strings forming the cosmetic title
sequence of spec section 4.2.  Only their identity and distinctness matter
to the state machine, so they are modelled as an enumeration. -/
inductive Title where
  | TARBETU
  | TARBETU1
  | TARBETU2
  | TARBETU3
  | TARBETU4
  | TARBETU5
  | TARBETU6
  | TARBETU7
deriving Repr, DecidableEq

/-- The key codes of `ratzilla::event::KeyCode` that `App::handle_event`
matches on; every other key code takes the `_` arm and is collapsed into
`Other`. -/
inductive KeyCode where
  | Enter
  | Esc
  | Up
  | Down
  | Char (c : Char)
  | Other
deriving Repr, DecidableEq

/-- Modelled from the spec: `ratatui::widgets::ListState` is an external
widget dependency, not code under `src/`.  The spec fixes its observable
contract: section 3 states the invariant that the selection "is always
`Some` and within `[0, menu_length)` once in Active phase", and sections
4.2/9 note that the observed variants clamp at the list boundaries.  So the
selection is an optional index and the move operations clamp against the
length of the list being displayed. -/
structure ListState where
  selected : Option Nat
deriving Repr, DecidableEq

/-- Modelled from the spec: `ListState::select_previous` — move the
selection to the previous index, clamping at `0`; an absent selection moves
to the last item. -/
def ListState.select_previous (L : Nat) (s : ListState) : ListState :=
  match s.selected with
  | some i => { selected := some (i - 1) }
  | none => { selected := some (L - 1) }

/-- Modelled from the spec: `ListState::select_next` — move the selection to
the next index, clamping at `L - 1`; an absent selection moves to the first
item. -/
def ListState.select_next (L : Nat) (s : ListState) : ListState :=
  match s.selected with
  | some i => { selected := some (min (i + 1) (L - 1)) }
  | none => { selected := some 0 }

/-- `u16::MAX`. -/
def u16MAX : Nat := 65535

/-- Rust `u16::saturating_add` on the `Nat` embedding of `u16`. -/
def satAdd16 (a b : Nat) : Nat := min (a + b) u16MAX

/-- `App` (main.rs lines 136-147).  `last_instant` is not a field here: time
enters the model as the elapsed argument of `App.tick`.  Of the external
`ScrollbarState` only its position component is kept, the one part the
state machine writes (`handle_event`'s trailing resynchronisation). -/
structure App where
  title : Title
  status : AppStatus
  intro_finalized : Bool
  list_state : ListState
  locked_in : Bool
  scrollbar_position : Nat
  scroll : Nat
  background : Background
deriving Repr, DecidableEq

/-- `App::menu_length` (main.rs lines 166-168). -/
def App.menu_length : Nat := 7

/-- `App::menu` (main.rs lines 171-181), as the list of the item labels. -/
def App.menu : List String :=
  ["./tarbetu", "./portfolio", "./translations", "./lycian",
   "./personal_soundtrack", "./echoes_from_my_mania",
   "./kara_tilki_hiyerarsisi"]

/-- `App::default` (main.rs lines 149-163): title `TARBETU`, status
`IntroductionStart`, not finalized, selection `Some(0)`, not locked in,
scroll `0`, background `First`. -/
def App.default : App :=
  { title := .TARBETU,
    status := .IntroductionStart,
    intro_finalized := false,
    list_state := { selected := some 0 },
    locked_in := false,
    scrollbar_position := 0,
    scroll := 0,
    background := .First }

/-- `App::next_status` (main.rs lines 340-351).  It reads only
`self.status`, so it is defined on `AppStatus`; the guarded arm
`Introduction(number) if number < max_introduction` and the following
`Introduction(_)` arm become one conditional. -/
def AppStatus.next_status : AppStatus → AppStatus
  | .IntroductionStart => .Introduction 0
  | .Introduction number =>
      if number < AppStatus.max_introduction then .Introduction (number + 1)
      else .IntroductionIdle
  | s => s

/-- `App::next_status` as the method on `App`. -/
def App.next_status (a : App) : AppStatus := a.status.next_status

/-- The `Up | Char('k')` arm of `App::handle_event` (main.rs lines
264-271): when locked in, `scroll.saturating_sub(1)`; otherwise reset
scroll to 0 and move the selection up. -/
def App.upArm (a : App) : App :=
  if a.locked_in then { a with scroll := a.scroll - 1 }
  else { a with scroll := 0,
                list_state := a.list_state.select_previous App.menu_length }

/-- The `Down | Char('j')` arm of `App::handle_event` (main.rs lines
272-279): when locked in, `scroll.saturating_add(1)`; otherwise reset
scroll to 0 and move the selection down. -/
def App.downArm (a : App) : App :=
  if a.locked_in then { a with scroll := satAdd16 a.scroll 1 }
  else { a with scroll := 0,
                list_state := a.list_state.select_next App.menu_length }

/-- `App::handle_event` (main.rs lines 239-284).  The match arms are kept in
source order; the guarded `Char` arms compare the title against the
constants of the `text` module.  The trailing statement resynchronises the
scrollbar position to `scroll`. -/
def App.handle_event (a : App) (key : KeyCode) : App :=
  let b :=
    match key with
    | .Enter => if a.locked_in = false then { a with locked_in := true } else a
    | .Esc => if a.locked_in = true then { a with locked_in := false } else a
    | .Char c =>
        if c = 't' ∧ a.title = Title.TARBETU then { a with title := .TARBETU1 }
        else if c = 'a' ∧ a.title = Title.TARBETU1 then { a with title := .TARBETU2 }
        else if c = 'r' ∧ a.title = Title.TARBETU2 then { a with title := .TARBETU3 }
        else if c = 'b' ∧ a.title = Title.TARBETU3 then { a with title := .TARBETU4 }
        else if c = 'e' ∧ a.title = Title.TARBETU4 then { a with title := .TARBETU5 }
        else if c = 't' ∧ a.title = Title.TARBETU5 then { a with title := .TARBETU6 }
        else if c = 'u' ∧ a.title = Title.TARBETU6 then { a with title := .TARBETU7 }
        else if c = 'k' then a.upArm
        else if c = 'j' then a.downArm
        else a
    | .Up => a.upArm
    | .Down => a.downArm
    | .Other => a
  { b with scrollbar_position := b.scroll }

/-- The `on_key_event` closure registered in `App::run` (main.rs lines
190-204): in the `List` status, delegate to `handle_event`; in every other
status, finalize the intro and jump to `List`. -/
def App.on_key_event (a : App) (key : KeyCode) : App :=
  match a.status with
  | .List => a.handle_event key
  | _ => { a with intro_finalized := true, status := .List }

/-- The `draw_web` closure registered in `App::run` (main.rs lines 207-235).
`elapsed` is the number of milliseconds since `last_instant` at the start
of the tick.  Each branch that fires assigns `last_instant = Instant::now()`,
so the elapsed value is `0` for the branches after it; that threading is
made explicit.  `next_status` is evaluated on the state at entry (line 209);
the second call at line 216 sees the same status, so a single evaluation is
faithful. -/
def App.tick (a0 : App) (elapsed0 : Nat) : App :=
  let next := a0.next_status
  let a1 :=
    if a0.intro_finalized = false ∧ 500 ≤ elapsed0 then
      { a0 with
          intro_finalized := if next = a0.status then true else a0.intro_finalized,
          status := next }
    else a0
  let elapsed1 :=
    if a0.intro_finalized = false ∧ 500 ≤ elapsed0 then 0 else elapsed0
  let a2 :=
    if a1.intro_finalized = true ∧ a1.status = .IntroductionIdle ∧ 2000 ≤ elapsed1 then
      { a1 with
          status := .Introduction (AppStatus.max_introduction - 1),
          intro_finalized := false }
    else a1
  let elapsed2 :=
    if a1.intro_finalized = true ∧ a1.status = .IntroductionIdle ∧ 2000 ≤ elapsed1 then 0
    else elapsed1
  if a2.intro_finalized = true ∧ 500 ≤ elapsed2 then
    { a2 with background := a2.background.next }
  else a2

/-- The run of the intro animation: `runTicks es n` is the state after `n`
redraw ticks from the default state with no key events, the `i`-th tick
observing `es i` elapsed milliseconds. -/
def runTicks (es : Nat → Nat) : Nat → App
  | 0 => App.default
  | n + 1 => (runTicks es n).tick (es n)

/-- The default state moved to the `Introduction k` status (the intermediate
states of the intro run). -/
def introApp (k : Nat) : App := { App.default with status := .Introduction k }

/-- The default state at `IntroductionIdle`, intro not yet finalized. -/
def idleApp : App := { App.default with status := .IntroductionIdle }

/-- The default state at `IntroductionIdle` with the intro finalized. -/
def idleFinalApp : App :=
  { App.default with status := .IntroductionIdle, intro_finalized := true }

/-- The default state in the `List` status (the Active phase). -/
def appActive : App := { App.default with status := .List }

/-- The default state in the `List` status with the intro finalized. -/
def appListFinal : App :=
  { App.default with status := .List, intro_finalized := true }

/-- The spec's section-3 invariant: once active, the selection is defined
and within the bounds of the menu. -/
def SelInv (a : App) : Prop :=
  ∃ i, a.list_state.selected = some i ∧ i < App.menu_length

/-! ## Helper lemmas -/

/-- The menu really has `menu_length` entries. -/
lemma menu_length_eq : App.menu.length = App.menu_length := rfl

/-- `handle_event` never writes `status`. -/
lemma handle_event_status (a : App) (k : KeyCode) :
    (a.handle_event k).status = a.status := by
  cases k <;> simp only [App.handle_event, App.upArm, App.downArm] <;>
    (repeat' split) <;> rfl

/-- `handle_event` never writes `list_state` except through the selection
moves of the `Up`/`Down` arms. -/
lemma handle_event_list_state (a : App) (k : KeyCode) :
    (a.handle_event k).list_state = a.list_state
    ∨ (a.handle_event k).list_state = a.list_state.select_previous App.menu_length
    ∨ (a.handle_event k).list_state = a.list_state.select_next App.menu_length := by
  cases k <;> simp only [App.handle_event, App.upArm, App.downArm] <;>
    (repeat' split) <;> simp

/-- The tick never writes `list_state`. -/
lemma tick_list_state (a : App) (e : Nat) :
    (a.tick e).list_state = a.list_state := by
  simp only [App.tick] ; (repeat' split) <;> rfl

/-- A tick in the `List` status stays in the `List` status. -/
lemma tick_status_list (a : App) (e : Nat) (h : a.status = .List) :
    (a.tick e).status = .List := by
  have hn : a.next_status = .List := by
    simp [App.next_status, h, AppStatus.next_status]
  simp only [App.tick, hn, h] ; (repeat' split) <;> simp_all

/-- `IntroductionIdle` stays fixed under every number of `next_status`
steps. -/
lemma next_status_iterate_idle (n : Nat) :
    AppStatus.next_status^[n] .IntroductionIdle = .IntroductionIdle := by
  induction n with
  | zero => rfl
  | succ n ih => rw [Function.iterate_succ_apply] ; exact ih

/-- From `Introduction k`, `m + 1` steps of `next_status` reach
`IntroductionIdle` as soon as `m` covers the remaining distance. -/
lemma next_status_reaches_idle (m : Nat) :
    ∀ k, AppStatus.max_introduction ≤ k + m →
      AppStatus.next_status^[m + 1] (.Introduction k) = .IntroductionIdle := by
  induction m with
  | zero =>
    intro k hk
    have hk2 : ¬ k < AppStatus.max_introduction := by omega
    simp [AppStatus.next_status, hk2]
  | succ m ih =>
    intro k hk
    rw [Function.iterate_succ_apply]
    by_cases hlt : k < AppStatus.max_introduction
    · rw [show AppStatus.next_status (.Introduction k) = .Introduction (k + 1) by
        simp [AppStatus.next_status, hlt]]
      exact ih (k + 1) (by omega)
    · rw [show AppStatus.next_status (.Introduction k) = .IntroductionIdle by
        simp [AppStatus.next_status, hlt]]
      exact next_status_iterate_idle (m + 1)

/-- A tick with at least 500ms elapsed, before the intro is finalized,
advances the status and finalizes exactly when the status would not
change. -/
lemma tick_advance (a : App) (e : Nat) (he : 500 ≤ e)
    (hf : a.intro_finalized = false) :
    a.tick e = { a with
                   status := a.next_status,
                   intro_finalized :=
                     if a.next_status = a.status then true else false } := by
  simp only [App.tick, hf, he, and_true, true_and]
  (repeat' split) <;> simp_all

/-- First qualifying tick: `IntroductionStart` advances to
`Introduction 0`. -/
lemma tick_step_start (e : Nat) (he : 500 ≤ e) :
    App.default.tick e = introApp 0 := by
  rw [tick_advance _ _ he rfl] ; decide

/-- A qualifying tick advances `Introduction k` to `Introduction (k + 1)`
while `k` is below the maximum. -/
lemma tick_step_intro (k : Nat) (hk : k < AppStatus.max_introduction)
    (e : Nat) (he : 500 ≤ e) :
    (introApp k).tick e = introApp (k + 1) := by
  rw [tick_advance _ _ he rfl]
  simp [introApp, App.default, App.next_status, AppStatus.next_status, hk]

/-- A qualifying tick moves `Introduction max_introduction` to
`IntroductionIdle`. -/
lemma tick_step_last (e : Nat) (he : 500 ≤ e) :
    (introApp AppStatus.max_introduction).tick e = idleApp := by
  rw [tick_advance _ _ he rfl] ; decide

/-- A qualifying tick at the unfinalized idle status finalizes the intro. -/
lemma tick_step_idle (e : Nat) (he : 500 ≤ e) :
    idleApp.tick e = idleFinalApp := by
  rw [tick_advance _ _ he rfl] ; decide

/-! ## The claims -/

/-- Claim C1: for every key code, delivering a key event while the status is
not `List` sets the status to `List` and `intro_finalized` to `true`,
regardless of which key was pressed (main.rs lines 190-204). -/
theorem c1_intro_skip (a : App) (k : KeyCode) (h : a.status ≠ .List) :
    (a.on_key_event k).status = .List
    ∧ (a.on_key_event k).intro_finalized = true := by
  cases hs : a.status <;>
    first
      | exact absurd hs h
      | simp [App.on_key_event, hs]

theorem c1_intro_skip_witness :
    (App.default.on_key_event .Enter).status = .List
    ∧ (App.default.on_key_event .Enter).intro_finalized = true :=
  c1_intro_skip App.default .Enter (by decide)

/-- Claim C2: `next_status` maps `IntroductionStart` to `Introduction 0`,
`Introduction k` with `k < max_introduction = 6` to `Introduction (k + 1)`,
`Introduction k` with `k ≥ max_introduction` to `IntroductionIdle`, and
`IntroductionIdle` and `List` to themselves; iterating it from any
`Introduction k` reaches `IntroductionIdle` after finitely many steps, and
`IntroductionIdle` is a fixed point (main.rs lines 340-351 and 33-37). -/
theorem c2_next_status_spec :
    AppStatus.next_status .IntroductionStart = .Introduction 0
    ∧ (∀ k, k < AppStatus.max_introduction →
        AppStatus.next_status (.Introduction k) = .Introduction (k + 1))
    ∧ (∀ k, AppStatus.max_introduction ≤ k →
        AppStatus.next_status (.Introduction k) = .IntroductionIdle)
    ∧ AppStatus.next_status .IntroductionIdle = .IntroductionIdle
    ∧ AppStatus.next_status .List = .List
    ∧ (∀ k, ∃ n, AppStatus.next_status^[n] (.Introduction k) = .IntroductionIdle)
    ∧ (∀ n, AppStatus.next_status^[n] .IntroductionIdle = .IntroductionIdle) := by
  refine ⟨rfl, ?_, ?_, rfl, rfl, ?_, next_status_iterate_idle⟩
  · intro k hk ; simp [AppStatus.next_status, hk]
  · intro k hk ; simp [AppStatus.next_status, Nat.not_lt.mpr hk]
  · intro k
    exact ⟨AppStatus.max_introduction + 1,
      next_status_reaches_idle AppStatus.max_introduction k (by omega)⟩

theorem c2_next_status_spec_witness :
    AppStatus.next_status (.Introduction 2) = .Introduction 3
    ∧ AppStatus.next_status (.Introduction 6) = .IntroductionIdle :=
  ⟨c2_next_status_spec.2.1 2 (by decide),
   c2_next_status_spec.2.2.1 6 (by decide)⟩

/-- Claim C3 as stated is false: the idle loop-back at main.rs lines
220-227 tests `status == IntroductionIdle`, not the Active `List` phase.
At the concrete state `appListFinal` (status `List`, intro finalized) a
tick with 2000ms elapsed keeps the status at `List` and the flag set,
instead of moving to `Introduction 5` with the flag cleared. -/
theorem c3_counterexample :
    appListFinal.status = .List
    ∧ appListFinal.intro_finalized = true
    ∧ (appListFinal.tick 2000).status = .List
    ∧ (appListFinal.tick 2000).status
        ≠ .Introduction (AppStatus.max_introduction - 1)
    ∧ (appListFinal.tick 2000).intro_finalized = true := by decide

/-- Claim C3, amended: if the application is in the `IntroductionIdle`
status (not the Active `List` status) with `intro_finalized` set and at
least 2 seconds have elapsed since the last transition, the next redraw
tick resets the status to `Introduction (max_introduction - 1)` (that is,
`Introduction 5`) and clears `intro_finalized` (main.rs lines 220-227). -/
theorem c3_idle_loopback (a : App) (e : Nat)
    (h : a.status = .IntroductionIdle) (hf : a.intro_finalized = true)
    (he : 2000 ≤ e) :
    (a.tick e).status = .Introduction (AppStatus.max_introduction - 1)
    ∧ (a.tick e).intro_finalized = false := by
  simp only [App.tick, h, hf, he]
  (repeat' split) <;> simp_all

theorem c3_idle_loopback_witness :
    (idleFinalApp.tick 2000).status
        = .Introduction (AppStatus.max_introduction - 1)
    ∧ (idleFinalApp.tick 2000).intro_finalized = false :=
  c3_idle_loopback idleFinalApp 2000 rfl rfl (by norm_num)

/-- Claim C4 as stated is false: starting from the default state
(`IntroductionStart`, not finalized), 7 qualifying ticks (each with 500ms
elapsed, no key press) end at `Introduction 6` with the flag still clear —
not at `IntroductionIdle` with the flag set.  The run needs 9 ticks: 8 to
walk `IntroductionStart → Introduction 0 → ... → Introduction 6 →
IntroductionIdle` and one more to notice the fixed point and finalize. -/
theorem c4_counterexample :
    ((fun a => App.tick a 500)^[7] App.default).status = .Introduction 6
    ∧ ((fun a => App.tick a 500)^[7] App.default).status ≠ .IntroductionIdle
    ∧ ((fun a => App.tick a 500)^[7] App.default).intro_finalized = false := by
  decide

/-- Claim C4, amended: starting from the initial state (status
`IntroductionStart`, `intro_finalized = false`), processing exactly 9
redraw ticks, each with at least 500ms elapsed since the previous
transition and with no key press, yields status `IntroductionIdle` and
`intro_finalized = true` (main.rs lines 209-218 and 340-351). -/
theorem c4_nine_ticks (es : Nat → Nat) (hall : ∀ i, i < 9 → 500 ≤ es i) :
    (runTicks es 9).status = .IntroductionIdle
    ∧ (runTicks es 9).intro_finalized = true := by
  have r1 : runTicks es 1 = introApp 0 := by
    show App.default.tick (es 0) = _
    exact tick_step_start _ (hall 0 (by norm_num))
  have r2 : runTicks es 2 = introApp 1 := by
    show (runTicks es 1).tick (es 1) = _
    rw [r1] ; exact tick_step_intro 0 (by decide) _ (hall 1 (by norm_num))
  have r3 : runTicks es 3 = introApp 2 := by
    show (runTicks es 2).tick (es 2) = _
    rw [r2] ; exact tick_step_intro 1 (by decide) _ (hall 2 (by norm_num))
  have r4 : runTicks es 4 = introApp 3 := by
    show (runTicks es 3).tick (es 3) = _
    rw [r3] ; exact tick_step_intro 2 (by decide) _ (hall 3 (by norm_num))
  have r5 : runTicks es 5 = introApp 4 := by
    show (runTicks es 4).tick (es 4) = _
    rw [r4] ; exact tick_step_intro 3 (by decide) _ (hall 4 (by norm_num))
  have r6 : runTicks es 6 = introApp 5 := by
    show (runTicks es 5).tick (es 5) = _
    rw [r5] ; exact tick_step_intro 4 (by decide) _ (hall 5 (by norm_num))
  have r7 : runTicks es 7 = introApp 6 := by
    show (runTicks es 6).tick (es 6) = _
    rw [r6] ; exact tick_step_intro 5 (by decide) _ (hall 6 (by norm_num))
  have r8 : runTicks es 8 = idleApp := by
    show (runTicks es 7).tick (es 7) = _
    rw [r7] ; exact tick_step_last _ (hall 7 (by norm_num))
  have r9 : runTicks es 9 = idleFinalApp := by
    show (runTicks es 8).tick (es 8) = _
    rw [r8] ; exact tick_step_idle _ (hall 8 (by norm_num))
  rw [r9] ; exact ⟨rfl, rfl⟩

theorem c4_nine_ticks_witness :
    (runTicks (fun _ => 500) 9).status = .IntroductionIdle
    ∧ (runTicks (fun _ => 500) 9).intro_finalized = true :=
  c4_nine_ticks (fun _ => 500) (fun _ _ => by norm_num)

/-- A `Down` key event in the unlocked `List` status resets the scroll,
moves the selection down and resynchronises the scrollbar. -/
lemma on_key_event_down_list (a : App) (h : a.status = .List)
    (hl : a.locked_in = false) :
    a.on_key_event .Down =
      { a with
          scroll := 0,
          list_state := a.list_state.select_next App.menu_length,
          scrollbar_position := 0 } := by
  simp [App.on_key_event, h, App.handle_event, App.downArm, hl]

/-- Iterated `Down` presses from the unlocked `List` status: the status and
lock are stable, the selection walks down and clamps at the end of the
menu, and the scroll is 0 as soon as one press happened. -/
lemma downs_aux (n : Nat) :
    ∀ (a : App), a.status = .List → a.locked_in = false →
      ∀ i, a.list_state.selected = some i → i < App.menu_length →
        ((fun s => s.on_key_event .Down)^[n] a).status = .List
        ∧ ((fun s => s.on_key_event .Down)^[n] a).locked_in = false
        ∧ ((fun s => s.on_key_event .Down)^[n] a).list_state.selected
            = some (min (i + n) (App.menu_length - 1))
        ∧ (1 ≤ n → ((fun s => s.on_key_event .Down)^[n] a).scroll = 0) := by
  have hm : App.menu_length = 7 := rfl
  induction n with
  | zero =>
    intro a h hl i hs hi
    refine ⟨h, hl, ?_, by omega⟩
    simp only [Function.iterate_zero, id_eq, hs]
    congr 1
    omega
  | succ n ih =>
    intro a h hl i hs hi
    obtain ⟨hb1, hb2, hb3, _⟩ := ih a h hl i hs hi
    rw [Function.iterate_succ_apply',
        on_key_event_down_list _ hb1 hb2]
    refine ⟨hb1, hb2, ?_, fun _ => rfl⟩
    simp only [ListState.select_next, hb3]
    congr 1
    omega

/-- Claim C5: in the Active (`List`) phase with `locked_in = false`,
starting from selection index 0 on the menu of length 7, after `n` `Down`
key events the selection index is `n` clamped at `menu_length - 1 = 6`
(the selection move clamps, it does not wrap), and the scroll offset is 0
after every press (main.rs lines 264-279 and 166-181). -/
theorem c5_down_presses (n : Nat) (a : App) (h : a.status = .List)
    (hl : a.locked_in = false) (hs : a.list_state.selected = some 0) :
    ((fun s => s.on_key_event .Down)^[n] a).list_state.selected
        = some (min n (App.menu_length - 1))
    ∧ (1 ≤ n → ((fun s => s.on_key_event .Down)^[n] a).scroll = 0) := by
  obtain ⟨-, -, h3, h4⟩ := downs_aux n a h hl 0 hs (by decide)
  refine ⟨?_, h4⟩
  simpa using h3

theorem c5_down_presses_witness :
    ((fun s => s.on_key_event .Down)^[10] appActive).list_state.selected
        = some 6
    ∧ ((fun s => s.on_key_event .Down)^[10] appActive).scroll = 0 := by
  obtain ⟨h1, h2⟩ := c5_down_presses 10 appActive rfl rfl rfl
  exact ⟨by simpa using h1, h2 (by norm_num)⟩

/-- Claim C6: the scroll offset (a `u16`, embedded as `Nat`) can never go
below 0 — `saturating_sub` floors at 0 rather than wrapping: handling `Up`
or `'k'` while locked in with scroll offset 0 leaves the scroll offset at
0, and no key event ever produces a scroll offset below 0 (trivially, the
offset stays a natural number; main.rs lines 264-271). -/
theorem c6_scroll_floor (a : App) (hl : a.locked_in = true)
    (h0 : a.scroll = 0) :
    (a.handle_event .Up).scroll = 0
    ∧ (a.handle_event (.Char 'k')).scroll = 0 := by
  constructor
  · simp [App.handle_event, App.upArm, hl, h0]
  · simp [App.handle_event, App.upArm, hl, h0]

theorem c6_scroll_floor_witness :
    (({ appActive with locked_in := true } : App).handle_event .Up).scroll = 0
    ∧ (({ appActive with locked_in := true } : App).handle_event
        (.Char 'k')).scroll = 0 :=
  c6_scroll_floor { appActive with locked_in := true } rfl rfl

/-- Claim C7: from any Active (`List`) state with `locked_in = false`,
handling `Enter` and then `Esc` returns `locked_in` to `false` with the
selection and the scroll offset exactly as before the two key events
(main.rs lines 239-284). -/
theorem c7_enter_escape (a : App) (h : a.status = .List)
    (hl : a.locked_in = false) :
    ((a.on_key_event .Enter).on_key_event .Esc).locked_in = false
    ∧ ((a.on_key_event .Enter).on_key_event .Esc).list_state = a.list_state
    ∧ ((a.on_key_event .Enter).on_key_event .Esc).scroll = a.scroll := by
  have h1 : a.on_key_event .Enter =
      { a with locked_in := true, scrollbar_position := a.scroll } := by
    simp [App.on_key_event, h, App.handle_event, hl]
  rw [h1]
  simp [App.on_key_event, h, App.handle_event]

theorem c7_enter_escape_witness :
    ((appActive.on_key_event .Enter).on_key_event .Esc).locked_in = false
    ∧ ((appActive.on_key_event .Enter).on_key_event .Esc).list_state
        = appActive.list_state
    ∧ ((appActive.on_key_event .Enter).on_key_event .Esc).scroll
        = appActive.scroll :=
  c7_enter_escape appActive rfl rfl

/-- `on_key_event` either delegates to `handle_event` or leaves the list
state alone. -/
lemma on_key_event_list_state (a : App) (k : KeyCode) :
    (a.on_key_event k).list_state = (a.handle_event k).list_state
    ∨ (a.on_key_event k).list_state = a.list_state := by
  cases hs : a.status <;> simp [App.on_key_event, hs]

/-- A clamped previous-move stays inside the list. -/
lemma select_previous_mem (L : Nat) (s : ListState) (i : Nat)
    (h : s.selected = some i) (hi : i < L) :
    ∃ j, (s.select_previous L).selected = some j ∧ j < L :=
  ⟨i - 1, by simp [ListState.select_previous, h], by omega⟩

/-- A clamped next-move stays inside a nonempty list. -/
lemma select_next_mem (L : Nat) (hL : 0 < L) (s : ListState) (i : Nat)
    (h : s.selected = some i) (hi : i < L) :
    ∃ j, (s.select_next L).selected = some j ∧ j < L :=
  ⟨min (i + 1) (L - 1), by simp [ListState.select_next, h], by omega⟩

/-- Claim C8: once in the Active phase the list selection is always
`some i` with `0 ≤ i < menu_length = 7`: it is `some 0` in the default
state, and every key event and every redraw tick preserves definedness and
bounds of the selection (main.rs lines 149-163, 264-279, 402-424). -/
theorem c8_selection_invariant :
    App.default.list_state.selected = some 0
    ∧ (∀ (a : App) (k : KeyCode), SelInv a → SelInv (a.on_key_event k))
    ∧ (∀ (a : App) (e : Nat), SelInv a → SelInv (a.tick e)) := by
  have hL : 0 < App.menu_length := by decide
  refine ⟨rfl, ?_, ?_⟩
  · intro a k hI
    obtain ⟨i, hsel, hi⟩ := hI
    rcases on_key_event_list_state a k with h | h
    · rcases handle_event_list_state a k with h2 | h2 | h2
      · exact ⟨i, by rw [h, h2] ; exact hsel, hi⟩
      · obtain ⟨j, hj1, hj2⟩ := select_previous_mem _ _ i hsel hi
        exact ⟨j, by rw [h, h2] ; exact hj1, hj2⟩
      · obtain ⟨j, hj1, hj2⟩ := select_next_mem _ hL _ i hsel hi
        exact ⟨j, by rw [h, h2] ; exact hj1, hj2⟩
    · exact ⟨i, by rw [h] ; exact hsel, hi⟩
  · intro a e hI
    obtain ⟨i, hsel, hi⟩ := hI
    exact ⟨i, by rw [tick_list_state] ; exact hsel, hi⟩

theorem c8_selection_invariant_witness :
    SelInv (appActive.on_key_event .Down) ∧ SelInv (appActive.tick 500) :=
  ⟨c8_selection_invariant.2.1 appActive .Down ⟨0, rfl, by decide⟩,
   c8_selection_invariant.2.2 appActive 500 ⟨0, rfl, by decide⟩⟩

/-- Claim C9: the Active (`List`) status is absorbing: key events in `List`
are routed to `handle_event`, which never writes the status, and a redraw
tick keeps `List` (its `next_status` is `List`, and the idle loop-back
fires only at `IntroductionIdle`; main.rs lines 190-204, 207-235,
340-351). -/
theorem c9_list_absorbing :
    (∀ (a : App) (k : KeyCode), a.status = .List →
        (a.on_key_event k).status = .List)
    ∧ (∀ (a : App) (e : Nat), a.status = .List → (a.tick e).status = .List) := by
  constructor
  · intro a k h
    simp [App.on_key_event, h, handle_event_status]
  · intro a e h
    exact tick_status_list a e h

theorem c9_list_absorbing_witness :
    (appActive.on_key_event .Other).status = .List
    ∧ (appActive.tick 5000).status = .List :=
  ⟨c9_list_absorbing.1 appActive .Other rfl,
   c9_list_absorbing.2 appActive 5000 rfl⟩

/-- The scroll offset after any key event is the old one, 0, the saturated
decrement or the saturated increment. -/
lemma handle_event_scroll (a : App) (k : KeyCode) :
    (a.handle_event k).scroll = a.scroll
    ∨ (a.handle_event k).scroll = 0
    ∨ (a.handle_event k).scroll = a.scroll - 1
    ∨ (a.handle_event k).scroll = satAdd16 a.scroll 1 := by
  cases k <;> simp only [App.handle_event, App.upArm, App.downArm] <;>
    (repeat' split) <;> simp

/-- Claim C10: the scroll offset saturates at `u16::MAX = 65535` rather
than wrapping: handling `Down` or `'j'` while locked in with scroll offset
65535 leaves the scroll offset at 65535, and no key event can push the
offset above 65535 (main.rs lines 272-279). -/
theorem c10_scroll_saturates (a : App) (hl : a.locked_in = true)
    (h : a.scroll = u16MAX) :
    (a.handle_event .Down).scroll = u16MAX
    ∧ (a.handle_event (.Char 'j')).scroll = u16MAX
    ∧ (∀ (b : App) (k : KeyCode), b.scroll ≤ u16MAX →
        (b.handle_event k).scroll ≤ u16MAX) := by
  refine ⟨?_, ?_, ?_⟩
  · simp [App.handle_event, App.downArm, hl, h, satAdd16]
  · simp [App.handle_event, App.downArm, hl, h, satAdd16]
  · intro b k hb
    rcases handle_event_scroll b k with h2 | h2 | h2 | h2 <;>
      rw [h2] <;> simp [satAdd16, u16MAX] at hb ⊢ <;> omega

theorem c10_scroll_saturates_witness :
    (({ appActive with locked_in := true, scroll := u16MAX } : App).handle_event
        .Down).scroll = u16MAX
    ∧ (({ appActive with locked_in := true, scroll := u16MAX } : App).handle_event
        (.Char 'j')).scroll = u16MAX :=
  ⟨(c10_scroll_saturates { appActive with locked_in := true, scroll := u16MAX }
      rfl rfl).1,
   (c10_scroll_saturates { appActive with locked_in := true, scroll := u16MAX }
      rfl rfl).2.1⟩

end Website
